import Mathlib

/-!
Shallow embedding of the CVRP optimization core in
src/backend/optimization-service/app.py (class CVRPOptimizer).

The external OR-Tools solver is modelled as an oracle
solve : BuiltModel → SolveOutcome: the source hands the built routing model
to routing.SolveWithParameters and only checks whether the returned
assignment is None (app.py line 163).  SolveOutcome refines that None with
the reason the solver had (proved infeasible versus time budget exhausted
before a solution was found), which the source never inspects.
AbstractSolution abstracts an OR-Tools assignment as one list of non-depot
node visits per vehicle together with the Min/Max values of the time
cumul variable at each stop position of each vehicle.

Python list indexing and division are embedded in Except String with the
exact str(e) messages CPython produces for them, because the try/except
wrapper in CVRPOptimizer.optimize (app.py lines 170-172) turns any such
exception into a returned value with success false and error str(e).
The float division used for capacity_utilization and the averages is
embedded in ℚ; no claim depends on rounding of those fields, only on
whether the division is defined.  The optimization_metadata block
(constant strings and a wall-clock timestamp) is outside every claim and
is not embedded.
-/

namespace Barq

/-- Python exception message of an out-of-range list index. -/
def indexErrorMsg : String := "list index out of range"

/-- Python exception message of an integer true division by zero. -/
def divZeroMsg : String := "division by zero"

/-- Error string returned by optimize when the solver returns no assignment
(app.py line 168). -/
def noSolutionMsg : String := "No solution found"

/-- Arguments of CVRPOptimizer.optimize (app.py line 41).  Distances,
demands, capacities and time windows are the non-negative integers the
data model prescribes. -/
structure OptArgs where
  distance_matrix : List (List Nat)
  demands : List Nat
  vehicle_capacities : List Nat
  num_vehicles : Nat
  depot : Nat
  time_limit : Nat
  time_windows : Option (List (Nat × Nat))
  service_times : Option (List Nat)

/-- Per-stop record produced by _extract_solution (app.py lines 197-209 and
218-229).  The time fields are present exactly when the time dimension
exists. -/
structure StopData where
  location_index : Nat
  cumulative_load : Nat
  demand : Nat
  arrival_time : Option Nat
  departure_time : Option Nat
deriving Repr, DecidableEq, Inhabited

/-- Per-route record (app.py lines 231-241). -/
structure RouteData where
  vehicle_id : Nat
  stops : List StopData
  total_distance : Nat
  total_load : Nat
  capacity_utilization : Rat
  total_time : Option Nat
deriving Repr, DecidableEq, Inhabited

/-- Aggregate summary (app.py lines 248-259). -/
structure Summary where
  total_distance : Nat
  total_load : Nat
  total_demand : Nat
  num_vehicles_used : Nat
  average_route_distance : Rat
  average_load_per_vehicle : Rat
  total_time : Option Nat
  average_route_time : Option Rat
deriving Repr, DecidableEq, Inhabited

/-- The dictionary CVRPOptimizer.optimize returns: either a success payload
with routes and summary (app.py lines 261-271) or a failure with an error
string (lines 168 and 172). -/
structure OptResult where
  success : Bool
  routes : Option (List RouteData)
  summary : Option Summary
  error : Option String
deriving Repr, DecidableEq, Inhabited

/-- Abstraction of an OR-Tools assignment: for each vehicle the list of
non-depot nodes visited between the depot start and the depot end, and for
each vehicle and stop position the (Min, Max) values of the time cumul
variable read by the extractor. -/
structure AbstractSolution where
  routes : List (List Nat)
  times : Nat → Nat → Nat × Nat

/-- Outcome of routing.SolveWithParameters (app.py line 161).  The source
only distinguishes found from not-found; infeasible and timeout refine the
not-found case with the reason, which the source ignores. -/
inductive SolveOutcome where
  | found (sol : AbstractSolution)
  | infeasible
  | timeout

/-- Average speed constant of app.py line 112, in meters per minute. -/
def speed_m_per_min : Nat := 667

/-- Maximum route duration in minutes (app.py line 128). -/
def horizon : Nat := 480

/-- Waiting slack permitted at a stop, in minutes (app.py line 131). -/
def waiting_slack : Nat := 30

/-- Checked Python list indexing: xs[i], raising IndexError when i is out
of range. -/
def getEntry {α : Type} : List α → Nat → Except String α
  | [], _ => Except.error indexErrorMsg
  | x :: _, 0 => Except.ok x
  | _ :: xs, n + 1 => getEntry xs n

/-- Time matrix derived from the distance matrix (app.py line 113):
int(dist / 667) on a non-negative integer distance is floor division. -/
def timeMatrixOf (dm : List (List Nat)) : List (List Nat) :=
  dm.map (fun row => row.map (fun dist => dist / speed_m_per_min))

/-- Service times, defaulting to all zeros when not supplied (app.py lines
116-117). -/
def serviceTimesOf (args : OptArgs) : List Nat :=
  match args.service_times with
  | some st => st
  | none => List.replicate args.distance_matrix.length 0

/-- The transit callback registered on the time dimension (app.py lines
119-123): travel time plus service time at the origin node.  The callback
is only ever invoked by the solver on in-range nodes. -/
def timeTransit (args : OptArgs) (from_node to_node : Nat) : Nat :=
  ((timeMatrixOf args.distance_matrix).getD from_node []).getD to_node 0 +
    (serviceTimesOf args).getD from_node 0

/-- The enumerate loop of app.py lines 140-146: every location except the
depot gets its window registered on the time dimension, starting from
index idx. -/
def registeredTimeWindowsFrom (depot : Nat) : Nat → List (Nat × Nat) → List (Nat × Nat × Nat)
  | _, [] => []
  | idx, (e, l) :: rest =>
    if idx = depot then registeredTimeWindowsFrom depot (idx + 1) rest
    else (idx, e, l) :: registeredTimeWindowsFrom depot (idx + 1) rest

/-- Time-window constraints registered on the model: pairs of location and
window for every non-depot location, in input order. -/
def registeredTimeWindows (depot : Nat) (tws : List (Nat × Nat)) : List (Nat × Nat × Nat) :=
  registeredTimeWindowsFrom depot 0 tws

/-- The routing model as built by optimize before solving (app.py lines
62-148): manager data, the distance and demand callbacks, the capacity
dimension data, and, when time windows are requested, the derived time
transit callback and the registered window constraints. -/
structure BuiltModel where
  num_nodes : Nat
  num_vehicles : Nat
  depot : Nat
  distance_matrix : List (List Nat)
  demands : List Nat
  vehicle_capacities : List Nat
  time_transit : Option (Nat → Nat → Nat)
  time_window_constraints : List (Nat × Nat × Nat)
  horizon_minutes : Nat
  waiting_slack_minutes : Nat

/-- Model construction (app.py lines 62-148).  There is no parameter for an
explicit time matrix, so whenever time windows are requested the time
matrix is derived from the distance matrix. -/
def buildModel (args : OptArgs) : BuiltModel :=
  { num_nodes := args.distance_matrix.length
    num_vehicles := args.num_vehicles
    depot := args.depot
    distance_matrix := args.distance_matrix
    demands := args.demands
    vehicle_capacities := args.vehicle_capacities
    time_transit := if args.time_windows.isSome then some (timeTransit args) else none
    time_window_constraints :=
      match args.time_windows with
      | some tws => registeredTimeWindows args.depot tws
      | none => []
    horizon_minutes := horizon
    waiting_slack_minutes := waiting_slack }

/-- The stop walk of _extract_solution (app.py lines 193-215): for each node
look up its demand, add it to the running load and record the stop, with
the Min/Max time values when the time dimension exists.  pos is the stop
position used to read the time cumul variable. -/
def walkStops (demands : List Nat) (hasTime : Bool) (times : Nat → Nat × Nat) :
    List Nat → Nat → Nat → Except String (List StopData × Nat)
  | [], _, load => Except.ok ([], load)
  | node :: rest, pos, load =>
    match getEntry demands node with
    | Except.error e => Except.error e
    | Except.ok d =>
      match walkStops demands hasTime times rest (pos + 1) (load + d) with
      | Except.error e => Except.error e
      | Except.ok (stops, finalLoad) =>
        Except.ok ({ location_index := node, cumulative_load := load + d, demand := d,
                     arrival_time := if hasTime then some (times pos).1 else none,
                     departure_time := if hasTime then some (times pos).2 else none } :: stops,
                   finalLoad)

/-- The arc cost evaluator is the distance callback (app.py lines 81-88):
int(distance_matrix[from][to]), with checked indexing. -/
def arcCost (dm : List (List Nat)) (i j : Nat) : Except String Nat :=
  match getEntry dm i with
  | Except.error e => Except.error e
  | Except.ok row => getEntry row j

/-- Accumulated arc cost along consecutive stops of a path (app.py lines
211-215). -/
def pathDistance (dm : List (List Nat)) : List Nat → Except String Nat
  | [] => Except.ok 0
  | [_] => Except.ok 0
  | a :: b :: rest =>
    match arcCost dm a b with
    | Except.error e => Except.error e
    | Except.ok c =>
      match pathDistance dm (b :: rest) with
      | Except.error e => Except.error e
      | Except.ok r => Except.ok (c + r)

/-- Extraction of one vehicle's route (app.py lines 186-243): walk the depot
start and the interior stops, append the final depot stop with demand 0
and the full route load, and compute the capacity utilization with Python
true division, which raises ZeroDivisionError on a zero capacity. -/
def extractRoute (dm : List (List Nat)) (demands caps : List Nat) (hasTime : Bool)
    (times : Nat → Nat × Nat) (depot vehicle_id : Nat) (interior : List Nat) :
    Except String RouteData :=
  match walkStops demands hasTime times (depot :: interior) 0 0 with
  | Except.error e => Except.error e
  | Except.ok (stops, route_load) =>
    match pathDistance dm (depot :: (interior ++ [depot])) with
    | Except.error e => Except.error e
    | Except.ok route_distance =>
      let finalPos := interior.length + 1
      let final_stop : StopData :=
        { location_index := depot, cumulative_load := route_load, demand := 0,
          arrival_time := if hasTime then some (times finalPos).1 else none,
          departure_time := none }
      let route_time := if hasTime then (times finalPos).1 else 0
      match getEntry caps vehicle_id with
      | Except.error e => Except.error e
      | Except.ok cap =>
        if cap = 0 then Except.error divZeroMsg
        else Except.ok {
          vehicle_id := vehicle_id
          stops := stops ++ [final_stop]
          total_distance := route_distance
          total_load := route_load
          capacity_utilization := (route_load : Rat) / (cap : Rat) * 100
          total_time := if hasTime then some route_time else none }

/-- The vehicle loop of _extract_solution (app.py line 186): vehicles v,
v + 1, ... for k iterations; the first exception aborts the extraction. -/
def extractRoutesGo (args : OptArgs) (hasTime : Bool) (sol : AbstractSolution) :
    Nat → Nat → Except String (List RouteData)
  | _, 0 => Except.ok []
  | v, k + 1 =>
    match extractRoute args.distance_matrix args.demands args.vehicle_capacities hasTime
        (sol.times v) args.depot v (sol.routes.getD v []) with
    | Except.error e => Except.error e
    | Except.ok rd =>
      match extractRoutesGo args hasTime sol (v + 1) k with
      | Except.error e => Except.error e
      | Except.ok rds => Except.ok (rd :: rds)

/-- CVRPOptimizer._extract_solution (app.py lines 174-271): extract every
vehicle's route, then build the aggregate summary.  The two averages are
Python true divisions by num_vehicles. -/
def extract_solution (args : OptArgs) (sol : AbstractSolution) (hasTime : Bool) :
    Except String OptResult :=
  match extractRoutesGo args hasTime sol 0 args.num_vehicles with
  | Except.error e => Except.error e
  | Except.ok rds =>
    let total_distance := (rds.map RouteData.total_distance).sum
    let total_load := (rds.map RouteData.total_load).sum
    let total_time := (rds.map (fun rd => rd.total_time.getD 0)).sum
    if args.num_vehicles = 0 then Except.error divZeroMsg
    else Except.ok {
      success := true
      routes := some rds
      summary := some {
        total_distance := total_distance
        total_load := total_load
        total_demand := args.demands.sum
        num_vehicles_used := (rds.filter (fun rd => 2 < rd.stops.length)).length
        average_route_distance := (total_distance : Rat) / (args.num_vehicles : Rat)
        average_load_per_vehicle := (total_load : Rat) / (args.num_vehicles : Rat)
        total_time := if hasTime then some total_time else none
        average_route_time :=
          if hasTime then some ((total_time : Rat) / (args.num_vehicles : Rat)) else none }
      error := none }

/-- The value returned when the solver produced no assignment (app.py lines
166-168), for genuine infeasibility and for timeout alike. -/
def noSolutionResult : OptResult :=
  { success := false, routes := none, summary := none, error := some noSolutionMsg }

/-- CVRPOptimizer.optimize (app.py lines 41-172): build the model, hand it
to the solver, extract on success, and return the generic failure value
when no assignment came back.  The surrounding try/except turns any
exception raised during extraction into a returned value with success
false and error str(e); totality of this function is that behavior. -/
def optimize (args : OptArgs) (solve : BuiltModel → SolveOutcome) : OptResult :=
  match solve (buildModel args) with
  | SolveOutcome.found sol =>
    match extract_solution args sol args.time_windows.isSome with
    | Except.ok res => res
    | Except.error e => { success := false, routes := none, summary := none, error := some e }
  | SolveOutcome.infeasible => noSolutionResult
  | SolveOutcome.timeout => noSolutionResult

/-- The optimizer instance: its only state is the solution_cache dict
created empty in __init__ (app.py lines 37-39). -/
structure CVRPOptimizer where
  solution_cache : List (String × OptResult)

/-- CVRPOptimizer.__init__ (app.py lines 37-39): the cache starts empty. -/
def CVRPOptimizer.init : CVRPOptimizer := { solution_cache := [] }

/-- CVRPOptimizer.optimize as a method: the body never reads or writes
self.solution_cache, so the instance state passes through unchanged. -/
def CVRPOptimizer.optimizeM (self : CVRPOptimizer) (args : OptArgs)
    (solve : BuiltModel → SolveOutcome) : CVRPOptimizer × OptResult :=
  (self, optimize args solve)

/-- A sequence of optimize calls against one optimizer instance, returning
the final instance state. -/
def runCalls (opt : CVRPOptimizer) (calls : List (OptArgs × (BuiltModel → SolveOutcome))) :
    CVRPOptimizer :=
  calls.foldl (fun s c => (CVRPOptimizer.optimizeM s c.1 c.2).1) opt

/-- Contract of an OR-Tools assignment for this routing model.  No
disjunctions are registered on the model, so every node must be visited:
each vehicle gets a route of in-range non-depot nodes, and every non-depot
node in range is visited exactly once across the fleet. -/
abbrev AbstractSolution.Valid (sol : AbstractSolution) (n depot num_vehicles : Nat) : Prop :=
  sol.routes.length = num_vehicles ∧
  (∀ r ∈ sol.routes, ∀ x ∈ r, x < n ∧ x ≠ depot) ∧
  (∀ x, x < n → x ≠ depot → sol.routes.flatten.count x = 1)

/-- Routes list of a result, empty when the result carries none. -/
def resultRoutes (res : OptResult) : List RouteData := res.routes.getD []

/-- Summary of a result, the default record when the result carries none. -/
def resultSummary (res : OptResult) : Summary := res.summary.getD default

/-- Scenario 1 of the spec: depot plus two locations, two vehicles. -/
def args3 : OptArgs :=
  { distance_matrix := [[0, 100, 200], [100, 0, 150], [200, 150, 0]]
    demands := [0, 5, 10]
    vehicle_capacities := [15, 15]
    num_vehicles := 2
    depot := 0
    time_limit := 5
    time_windows := none
    service_times := none }

/-- An assignment for args3: vehicle 0 serves location 1, vehicle 1 serves
location 2. -/
def sol3 : AbstractSolution :=
  { routes := [[1], [2]], times := fun _ _ => (0, 0) }

/-- Oracle that returns the args3 assignment. -/
def solveFound3 : BuiltModel → SolveOutcome := fun _ => SolveOutcome.found sol3

/-- Oracle for a solve run that proves infeasibility. -/
def solveInfeasibleFn : BuiltModel → SolveOutcome := fun _ => SolveOutcome.infeasible

/-- Oracle for a solve run whose time budget expires with no incumbent. -/
def solveTimeoutFn : BuiltModel → SolveOutcome := fun _ => SolveOutcome.timeout

/-- args3 with wide time windows requested, to exercise the time matrix
derivation. -/
def args3tw : OptArgs :=
  { args3 with time_windows := some [(0, 480), (0, 480), (0, 480)] }

/-- Input whose second location has an inverted time window: earliest 10 is
greater than latest 5. -/
def argsBadTW : OptArgs :=
  { distance_matrix := [[0, 100], [100, 0]]
    demands := [0, 5]
    vehicle_capacities := [10]
    num_vehicles := 1
    depot := 0
    time_limit := 5
    time_windows := some [(0, 480), (10, 5)]
    service_times := none }

/-- An assignment for argsBadTW: the single vehicle serves location 1. -/
def solBadTW : AbstractSolution :=
  { routes := [[1]], times := fun _ _ => (0, 0) }

/-- Oracle that returns the argsBadTW assignment. -/
def solveFoundBadTW : BuiltModel → SolveOutcome := fun _ => SolveOutcome.found solBadTW

/-- Input whose second vehicle has capacity zero; the assignment leaves that
vehicle unused, yet extraction still divides by its capacity. -/
def argsZeroCap : OptArgs :=
  { distance_matrix := [[0, 100], [100, 0]]
    demands := [0, 5]
    vehicle_capacities := [15, 0]
    num_vehicles := 2
    depot := 0
    time_limit := 5
    time_windows := none
    service_times := none }

/-- An assignment for argsZeroCap: vehicle 0 serves location 1, vehicle 1
stays at the depot. -/
def solZeroCap : AbstractSolution :=
  { routes := [[1], []], times := fun _ _ => (0, 0) }

/-- Oracle that returns the argsZeroCap assignment. -/
def solveFoundZeroCap : BuiltModel → SolveOutcome := fun _ => SolveOutcome.found solZeroCap

/-- Indexing a mapped list below its length applies the function to the
underlying entry. -/
lemma getD_map_lt {α β : Type} (f : α → β) (d : α) (d2 : β) :
    ∀ (l : List α) (i : Nat), i < l.length → (l.map f).getD i d2 = f (l.getD i d)
  | [], i, h => absurd h (Nat.not_lt_zero i)
  | _ :: _, 0, _ => rfl
  | _ :: xs, i + 1, h => getD_map_lt f d d2 xs i (Nat.lt_of_succ_lt_succ h)

/-- Every entry of a replicated zero list reads as zero. -/
lemma getD_replicate_zero : ∀ (n i : Nat), (List.replicate n (0 : Nat)).getD i 0 = 0
  | 0, _ => rfl
  | _ + 1, 0 => rfl
  | n + 1, i + 1 => getD_replicate_zero n i

/-- The window of every non-depot location in the list is registered on the
model, at its enumerated index. -/
lemma mem_registeredTimeWindowsFrom (depot : Nat) :
    ∀ (tws : List (Nat × Nat)) (start i e l : Nat), tws[i]? = some (e, l) →
      start + i ≠ depot → (start + i, e, l) ∈ registeredTimeWindowsFrom depot start tws := by
  intro tws
  induction tws with
  | nil => intro start i e l h; simp at h
  | cons hd rest ih =>
    intro start i e l h hne
    obtain ⟨e0, l0⟩ := hd
    cases i with
    | zero =>
      simp only [List.getElem?_cons_zero, Option.some_inj] at h
      rw [Nat.add_zero] at hne ⊢
      cases h
      simp only [registeredTimeWindowsFrom, if_neg hne]
      exact List.mem_cons_self _ _
    | succ j =>
      simp only [List.getElem?_cons_succ] at h
      have hne2 : (start + 1) + j ≠ depot := by omega
      have hmem := ih (start + 1) j e l h hne2
      have harith : (start + 1) + j = start + (j + 1) := by omega
      rw [harith] at hmem
      simp only [registeredTimeWindowsFrom]
      by_cases hdep : start = depot
      · rw [if_pos hdep]; exact hmem
      · rw [if_neg hdep]; exact List.mem_cons_of_mem _ hmem

/-- A sequence of optimize calls leaves the optimizer instance exactly as it
started. -/
lemma runCalls_state (opt : CVRPOptimizer)
    (calls : List (OptArgs × (BuiltModel → SolveOutcome))) : runCalls opt calls = opt := by
  induction calls with
  | nil => rfl
  | cons c rest ih => exact ih

/-- Characterization of checked indexing success. -/
lemma getEntry_ok_iff {α : Type} : ∀ (xs : List α) (i : Nat) (x : α),
    getEntry xs i = Except.ok x ↔ xs[i]? = some x
  | [], i, x => by simp [getEntry]
  | _ :: _, 0, x => by simp [getEntry]
  | _ :: xs, i + 1, x => by simpa [getEntry] using getEntry_ok_iff xs i x

/-- Checked indexing below the length returns the getD value. -/
lemma getEntry_lt {α : Type} (d : α) : ∀ (xs : List α) (i : Nat), i < xs.length →
    getEntry xs i = Except.ok (xs.getD i d)
  | [], i, h => absurd h (Nat.not_lt_zero i)
  | _ :: _, 0, _ => rfl
  | _ :: xs, i + 1, h => getEntry_lt d xs i (Nat.lt_of_succ_lt_succ h)

/-- Structure of a successful stop walk: the recorded location indices are
exactly the walked nodes, every recorded demand is the demand-vector entry
of its in-range location, the final load is the running load plus all
recorded demands, and each cumulative load is the prefix sum of the
recorded demands up to and including that stop. -/
lemma walkStops_ok_spec (demands : List Nat) (hasTime : Bool) (times : Nat → Nat × Nat) :
    ∀ (nodes : List Nat) (pos load : Nat) (stops : List StopData) (load2 : Nat),
      walkStops demands hasTime times nodes pos load = Except.ok (stops, load2) →
      stops.map StopData.location_index = nodes ∧
      (∀ s ∈ stops, s.demand = demands.getD s.location_index 0 ∧
        s.location_index < demands.length) ∧
      load2 = load + (stops.map StopData.demand).sum ∧
      (∀ k, k < stops.length →
        (stops.getD k default).cumulative_load =
          load + ((stops.take (k + 1)).map StopData.demand).sum) := by
  intro nodes
  induction nodes with
  | nil =>
    intro pos load stops load2 h
    simp only [walkStops, Except.ok.injEq, Prod.mk.injEq] at h
    obtain ⟨h1, h2⟩ := h
    subst h1; subst h2
    refine ⟨rfl, by simp, by simp, ?_⟩
    intro k hk
    simp at hk
  | cons node rest ih =>
    intro pos load stops load2 h
    simp only [walkStops] at h
    cases hge : getEntry demands node with
    | error e => simp only [hge] at h; exact Except.noConfusion h
    | ok d =>
      simp only [hge] at h
      cases hrec : walkStops demands hasTime times rest (pos + 1) (load + d) with
      | error e => simp only [hrec] at h; exact Except.noConfusion h
      | ok out =>
        obtain ⟨stops2, load3⟩ := out
        simp only [hrec] at h
        simp only [Except.ok.injEq, Prod.mk.injEq] at h
        obtain ⟨h1, h2⟩ := h
        subst h1
        subst h2
        obtain ⟨ih1, ih2, ih3, ih4⟩ := ih (pos + 1) (load + d) stops2 load3 hrec
        have hget : demands[node]? = some d := (getEntry_ok_iff demands node d).mp hge
        obtain ⟨hnlt, hnd⟩ := List.getElem?_eq_some.mp hget
        have hgd : demands.getD node 0 = d := by
          rw [List.getD_eq_getElem demands 0 hnlt, hnd]
        refine ⟨?_, ?_, ?_, ?_⟩
        · simp [ih1]
        · intro s hs
          rcases List.mem_cons.mp hs with rfl | hs2
          · exact ⟨hgd.symm, hnlt⟩
          · exact ih2 s hs2
        · simp only [List.map_cons, List.sum_cons]
          omega
        · intro k hk
          cases k with
          | zero => simp
          | succ j =>
            have hjlt : j < stops2.length := by
              simp only [List.length_cons] at hk
              omega
            have hstep := ih4 j hjlt
            simp only [List.getD_cons_succ, List.take_succ_cons, List.map_cons,
              List.sum_cons, hstep]
            omega

/-- The stop walk succeeds whenever every walked node indexes into the
demand vector. -/
lemma walkStops_isOk (demands : List Nat) (hasTime : Bool) (times : Nat → Nat × Nat) :
    ∀ (nodes : List Nat) (pos load : Nat), (∀ x ∈ nodes, x < demands.length) →
      ∃ out, walkStops demands hasTime times nodes pos load = Except.ok out := by
  intro nodes
  induction nodes with
  | nil => intro pos load _; exact ⟨([], load), rfl⟩
  | cons node rest ih =>
    intro pos load hb
    have hge := getEntry_lt 0 demands node (hb node (List.mem_cons_self _ _))
    obtain ⟨⟨stops2, load3⟩, hrec⟩ := ih (pos + 1) (load + demands.getD node 0)
      (fun x hx => hb x (List.mem_cons_of_mem _ hx))
    cases hw : walkStops demands hasTime times (node :: rest) pos load with
    | ok out => exact ⟨out, rfl⟩
    | error e =>
      simp only [walkStops, hge, hrec] at hw
      exact (Except.noConfusion hw)

/-- The arc-cost accumulation succeeds on any path through a square matrix
whose nodes are all in range. -/
lemma pathDistance_isOk (dm : List (List Nat)) (hsq : ∀ row ∈ dm, row.length = dm.length) :
    ∀ (path : List Nat), (∀ x ∈ path, x < dm.length) →
      ∃ n, pathDistance dm path = Except.ok n := by
  intro path
  induction path with
  | nil => intro _; exact ⟨0, rfl⟩
  | cons a rest ih =>
    intro hb
    cases rest with
    | nil => exact ⟨0, rfl⟩
    | cons b rest2 =>
      have ha : a < dm.length := hb a (List.mem_cons_self _ _)
      have hrow := getEntry_lt [] dm a ha
      have hrowmem : dm.getD a [] ∈ dm := by
        rw [List.getD_eq_getElem dm [] ha]; exact List.getElem_mem ha
      have hb2 : b < (dm.getD a []).length := by
        rw [hsq _ hrowmem]
        exact hb b (List.mem_cons_of_mem _ (List.mem_cons_self _ _))
      have hcol := getEntry_lt 0 (dm.getD a []) b hb2
      obtain ⟨r, hrec⟩ := ih (fun x hx => hb x (List.mem_cons_of_mem _ hx))
      cases hw : pathDistance dm (a :: b :: rest2) with
      | ok n => exact ⟨n, rfl⟩
      | error e =>
        simp only [pathDistance, arcCost, hrow, hcol, hrec] at hw
        exact (Except.noConfusion hw)

/-- Destructuring a successful route extraction: the walk and the distance
accumulation succeeded, and the final depot stop carries demand 0 and the
full route load. -/
lemma extractRoute_ok_destruct (dm : List (List Nat)) (demands caps : List Nat)
    (hasTime : Bool) (times : Nat → Nat × Nat) (depot v : Nat) (interior : List Nat)
    (rd : RouteData)
    (h : extractRoute dm demands caps hasTime times depot v interior = Except.ok rd) :
    ∃ ws load dist fin,
      walkStops demands hasTime times (depot :: interior) 0 0 = Except.ok (ws, load) ∧
      pathDistance dm (depot :: (interior ++ [depot])) = Except.ok dist ∧
      rd.vehicle_id = v ∧ rd.stops = ws ++ [fin] ∧ rd.total_load = load ∧
      rd.total_distance = dist ∧
      fin.location_index = depot ∧ fin.demand = 0 ∧ fin.cumulative_load = load := by
  unfold extractRoute at h
  cases hws : walkStops demands hasTime times (depot :: interior) 0 0 with
  | error e => simp [hws] at h
  | ok out =>
    obtain ⟨ws, load⟩ := out
    simp only [hws] at h
    cases hpd : pathDistance dm (depot :: (interior ++ [depot])) with
    | error e => simp [hpd] at h
    | ok dist =>
      simp only [hpd] at h
      cases hcap : getEntry caps v with
      | error e => simp [hcap] at h
      | ok cap =>
        simp only [hcap] at h
        by_cases hz : cap = 0
        · rw [if_pos hz] at h; simp at h
        · rw [if_neg hz] at h
          simp only [Except.ok.injEq] at h
          subst h
          exact ⟨ws, load, dist, _, rfl, rfl, rfl, rfl, rfl, rfl, rfl, rfl, rfl⟩

/-- Facts about a successfully extracted route, in the shape the claims
use: the stop sequence is depot, interior, depot; its length is the
interior length plus two; the route load is the demand sum over depot and
interior; every non-final stop's demand field is the demand-vector entry
of its location; every cumulative load is the prefix sum of the recorded
demands; and the final stop carries demand 0 and the route's total load. -/
lemma extractRoute_ok_spec (dm : List (List Nat)) (demands caps : List Nat)
    (hasTime : Bool) (times : Nat → Nat × Nat) (depot v : Nat) (interior : List Nat)
    (rd : RouteData)
    (h : extractRoute dm demands caps hasTime times depot v interior = Except.ok rd) :
    rd.stops.map StopData.location_index = depot :: (interior ++ [depot]) ∧
    rd.stops.length = interior.length + 2 ∧
    rd.total_load = ((depot :: interior).map (fun x => demands.getD x 0)).sum ∧
    (∀ k, k + 1 < rd.stops.length →
      (rd.stops.getD k default).demand =
        demands.getD ((rd.stops.getD k default).location_index) 0) ∧
    (∀ k, k < rd.stops.length →
      (rd.stops.getD k default).cumulative_load =
        ((rd.stops.take (k + 1)).map StopData.demand).sum) ∧
    rd.stops.getLast?.map StopData.demand = some 0 ∧
    rd.stops.getLast?.map StopData.cumulative_load = some rd.total_load := by
  obtain ⟨ws, load, dist, fin, hws, hpd, hvid, hstops, hload, hdist, hfl, hfd, hfc⟩ :=
    extractRoute_ok_destruct dm demands caps hasTime times depot v interior rd h
  obtain ⟨hmap, hdem, hsum, hcum⟩ :=
    walkStops_ok_spec demands hasTime times (depot :: interior) 0 0 ws load hws
  have hwlen : ws.length = interior.length + 1 := by
    have := congrArg List.length hmap
    simpa using this
  have hdemsum : (ws.map StopData.demand).sum =
      ((depot :: interior).map (fun x => demands.getD x 0)).sum := by
    have hcongr : ws.map StopData.demand =
        ws.map (fun s => demands.getD s.location_index 0) :=
      List.map_congr_left (fun s hs => (hdem s hs).1)
    rw [hcongr, show (fun s : StopData => demands.getD s.location_index 0) =
      ((fun x => demands.getD x 0) ∘ StopData.location_index) from rfl,
      ← List.map_map, hmap]
  refine ⟨?_, ?_, ?_, ?_, ?_, ?_, ?_⟩
  · rw [hstops, List.map_append, hmap]
    simp [hfl]
  · rw [hstops]
    simp [hwlen]
  · rw [hload, hsum, hdemsum]
    simp
  · intro k hk
    have hklt : k < ws.length := by
      rw [hstops] at hk
      simp only [List.length_append, List.length_singleton] at hk
      omega
    rw [hstops, List.getD_append _ _ _ k hklt]
    have hmem : ws.getD k default ∈ ws := by
      rw [List.getD_eq_getElem ws default hklt]
      exact List.getElem_mem hklt
    exact (hdem _ hmem).1
  · intro k hk
    rw [hstops] at hk
    simp only [List.length_append, List.length_singleton] at hk
    by_cases hklt : k < ws.length
    · rw [hstops, List.getD_append _ _ _ k hklt,
        List.take_append_of_le_length (by omega : k + 1 ≤ ws.length)]
      have := hcum k hklt
      simpa using this
    · have hkeq : k = ws.length := by omega
      subst hkeq
      rw [hstops, List.getD_append_right _ _ _ _ (Nat.le_refl _), Nat.sub_self]
      have htake : (ws ++ [fin]).take (ws.length + 1) = ws ++ [fin] := by
        have : ws.length + 1 = (ws ++ [fin]).length := by simp
        rw [this, List.take_length]
      rw [htake]
      simp only [List.getD_cons_zero, List.map_append, List.sum_append, List.map_cons,
        List.map_nil, List.sum_cons, List.sum_nil, hfd, hfc]
      omega
  · rw [hstops, List.getLast?_concat]
    simp [hfd]
  · rw [hstops, List.getLast?_concat, hload]
    simp [hfc]

/-- Route extraction succeeds for a vehicle with in-range interior nodes, a
square distance matrix, an in-range depot and a nonzero capacity. -/
lemma extractRoute_isOk (dm : List (List Nat)) (demands caps : List Nat) (hasTime : Bool)
    (times : Nat → Nat × Nat) (depot v : Nat) (interior : List Nat)
    (hd : demands.length = dm.length)
    (hsq : ∀ row ∈ dm, row.length = dm.length)
    (hdep : depot < dm.length) (hbound : ∀ x ∈ interior, x < dm.length)
    (hv : v < caps.length) (hcap : caps.getD v 0 ≠ 0) :
    ∃ rd, extractRoute dm demands caps hasTime times depot v interior = Except.ok rd := by
  have hwb : ∀ x ∈ depot :: interior, x < demands.length := by
    intro x hx; rw [hd]
    rcases List.mem_cons.mp hx with rfl | hx2
    · exact hdep
    · exact hbound x hx2
  obtain ⟨⟨ws, load⟩, hws⟩ := walkStops_isOk demands hasTime times _ 0 0 hwb
  have hpb : ∀ x ∈ depot :: (interior ++ [depot]), x < dm.length := by
    intro x hx
    rcases List.mem_cons.mp hx with rfl | hx2
    · exact hdep
    · rcases List.mem_append.mp hx2 with hx3 | hx4
      · exact hbound x hx3
      · rw [List.mem_singleton.mp hx4]; exact hdep
  obtain ⟨dist, hpd⟩ := pathDistance_isOk dm hsq _ hpb
  have hce := getEntry_lt 0 caps v hv
  cases hw : extractRoute dm demands caps hasTime times depot v interior with
  | ok rd => exact ⟨rd, rfl⟩
  | error e =>
    unfold extractRoute at hw
    simp only [hws, hpd, hce, if_neg hcap] at hw
    exact (Except.noConfusion hw)

/-- With the same well-formed inputs but a zero capacity, route extraction
raises the Python division-by-zero error. -/
lemma extractRoute_err_cap0 (dm : List (List Nat)) (demands caps : List Nat) (hasTime : Bool)
    (times : Nat → Nat × Nat) (depot v : Nat) (interior : List Nat)
    (hd : demands.length = dm.length)
    (hsq : ∀ row ∈ dm, row.length = dm.length)
    (hdep : depot < dm.length) (hbound : ∀ x ∈ interior, x < dm.length)
    (hv : v < caps.length) (hcap : caps.getD v 0 = 0) :
    extractRoute dm demands caps hasTime times depot v interior =
      Except.error divZeroMsg := by
  have hwb : ∀ x ∈ depot :: interior, x < demands.length := by
    intro x hx; rw [hd]
    rcases List.mem_cons.mp hx with rfl | hx2
    · exact hdep
    · exact hbound x hx2
  obtain ⟨⟨ws, load⟩, hws⟩ := walkStops_isOk demands hasTime times _ 0 0 hwb
  have hpb : ∀ x ∈ depot :: (interior ++ [depot]), x < dm.length := by
    intro x hx
    rcases List.mem_cons.mp hx with rfl | hx2
    · exact hdep
    · rcases List.mem_append.mp hx2 with hx3 | hx4
      · exact hbound x hx3
      · rw [List.mem_singleton.mp hx4]; exact hdep
  obtain ⟨dist, hpd⟩ := pathDistance_isOk dm hsq _ hpb
  have hce := getEntry_lt 0 caps v hv
  unfold extractRoute
  simp only [hws, hpd, hce, if_pos hcap]

/-- The vehicle loop relates the ranged vehicle ids with the extracted
route records pairwise. -/
lemma extractRoutesGo_ok_forall2 (args : OptArgs) (hasTime : Bool) (sol : AbstractSolution) :
    ∀ (k v : Nat) (rds : List RouteData),
      extractRoutesGo args hasTime sol v k = Except.ok rds →
      List.Forall₂ (fun i rd =>
        extractRoute args.distance_matrix args.demands args.vehicle_capacities hasTime
          (sol.times i) args.depot i (sol.routes.getD i []) = Except.ok rd)
        (List.range' v k) rds := by
  intro k
  induction k with
  | zero =>
    intro v rds h
    simp only [extractRoutesGo, Except.ok.injEq] at h
    subst h
    exact List.Forall₂.nil
  | succ k2 ih =>
    intro v rds h
    simp only [extractRoutesGo] at h
    cases hx : extractRoute args.distance_matrix args.demands args.vehicle_capacities hasTime
        (sol.times v) args.depot v (sol.routes.getD v []) with
    | error e => simp only [hx] at h; exact Except.noConfusion h
    | ok rd =>
      simp only [hx] at h
      cases hrec : extractRoutesGo args hasTime sol (v + 1) k2 with
      | error e => simp only [hrec] at h; exact Except.noConfusion h
      | ok rds2 =>
        simp only [hrec, Except.ok.injEq] at h
        subst h
        rw [List.range'_succ]
        exact List.Forall₂.cons hx (ih (v + 1) rds2 hrec)

/-- Mapping both sides of a pairwise relation that determines the images. -/
lemma forall2_map_eq {α β γ : Type} {R : α → β → Prop} (g : β → γ) (f : α → γ)
    (hgf : ∀ i rd, R i rd → g rd = f i) :
    ∀ {is : List α} {rds : List β}, List.Forall₂ R is rds → rds.map g = is.map f := by
  intro is rds h
  induction h with
  | nil => rfl
  | @cons a b l1 l2 hR hrest ihr => simp only [List.map_cons, hgf _ _ hR, ihr]

/-- Every element on the right of a pairwise relation has a related index
on the left. -/
lemma forall2_mem_right {α β : Type} {R : α → β → Prop} :
    ∀ {is : List α} {rds : List β}, List.Forall₂ R is rds →
      ∀ rd ∈ rds, ∃ i ∈ is, R i rd := by
  intro is rds h
  induction h with
  | nil => intro rd hrd; simp at hrd
  | @cons a b l1 l2 hR hrest ihr =>
    intro rd hrd
    rcases List.mem_cons.mp hrd with rfl | hrd2
    · exact ⟨a, List.mem_cons_self _ _, hR⟩
    · obtain ⟨i, hi, hRi⟩ := ihr rd hrd2
      exact ⟨i, List.mem_cons_of_mem _ hi, hRi⟩

/-- Reading a list back entrywise through getD over the range of its
length. -/
lemma map_getD_range {α : Type} (d : α) :
    ∀ (l : List α), (List.range l.length).map (fun i => l.getD i d) = l := by
  intro l
  induction l with
  | nil => rfl
  | cons a t ih =>
    simp only [List.length_cons, List.range_succ_eq_map, List.map_cons, List.map_map,
      List.getD_cons_zero]
    have hfun : ((fun i => (a :: t).getD i d) ∘ Nat.succ) = (fun i => t.getD i d) :=
      funext fun i => List.getD_cons_succ
    rw [hfun, ih]

/-- Summing demand lookups over any node list that hits every in-range
non-depot index exactly once gives the total demand, when the depot entry
is zero. -/
lemma sum_getD_of_counts (d : List Nat) (depot : Nat) (S : List Nat)
    (hmem : ∀ x ∈ S, x < d.length ∧ x ≠ depot)
    (hcount : ∀ x, x < d.length → x ≠ depot → S.count x = 1)
    (hd0 : d.getD depot 0 = 0) :
    (S.map (fun x => d.getD x 0)).sum = d.sum := by
  have hfilter : ∀ x : Nat,
      ((List.range d.length).filter (fun y => y != depot)).count x =
        if x < d.length ∧ x ≠ depot then 1 else 0 := by
    intro x
    by_cases hx : x < d.length ∧ x ≠ depot
    · rw [if_pos hx, List.count_filter (by simpa using hx.2)]
      exact List.count_eq_one_of_mem (List.nodup_range _) (List.mem_range.mpr hx.1)
    · rw [if_neg hx, List.count_eq_zero]
      intro hmem2
      obtain ⟨hr, hp⟩ := List.mem_filter.mp hmem2
      exact hx ⟨List.mem_range.mp hr, by simpa using hp⟩
  have hperm : S.Perm ((List.range d.length).filter (fun y => y != depot)) := by
    rw [List.perm_iff_count]
    intro a
    rw [hfilter a]
    by_cases ha : a < d.length ∧ a ≠ depot
    · rw [if_pos ha]; exact hcount a ha.1 ha.2
    · rw [if_neg ha, List.count_eq_zero]
      intro haS
      exact ha (hmem a haS)
  rw [(hperm.map _).sum_eq]
  by_cases hdep : depot < d.length
  · have hperm2 : (List.range d.length).Perm (depot :: (List.range d.length).erase depot) :=
      List.perm_cons_erase (List.mem_range.mpr hdep)
    have herase : (List.range d.length).erase depot =
        (List.range d.length).filter (fun y => y != depot) :=
      List.Nodup.erase_eq_filter (List.nodup_range _) depot
    have hs2 := (hperm2.map (fun x => d.getD x 0)).sum_eq
    rw [herase, map_getD_range 0 d] at hs2
    rw [hs2]
    simp only [List.map_cons, List.sum_cons, hd0, Nat.zero_add]
  · have hfeq : (List.range d.length).filter (fun y => y != depot) = List.range d.length := by
      rw [List.filter_eq_self]
      intro a ha
      have halt : a < d.length := List.mem_range.mp ha
      simp only [bne_iff_ne, ne_eq]
      omega
    rw [hfeq, map_getD_range]

/-- Destructuring a successful full extraction: the vehicle loop succeeded,
the vehicle count is nonzero, and the result is the success payload with
the aggregate summary computed from the extracted routes. -/
lemma extract_solution_ok_spec (args : OptArgs) (sol : AbstractSolution) (hasTime : Bool)
    (res : OptResult) (h : extract_solution args sol hasTime = Except.ok res) :
    ∃ rds, extractRoutesGo args hasTime sol 0 args.num_vehicles = Except.ok rds ∧
      args.num_vehicles ≠ 0 ∧ res.success = true ∧ res.routes = some rds ∧
      res.error = none ∧
      res.summary = some {
        total_distance := (rds.map RouteData.total_distance).sum
        total_load := (rds.map RouteData.total_load).sum
        total_demand := args.demands.sum
        num_vehicles_used := (rds.filter (fun rd => 2 < rd.stops.length)).length
        average_route_distance :=
          ((rds.map RouteData.total_distance).sum : Rat) / (args.num_vehicles : Rat)
        average_load_per_vehicle :=
          ((rds.map RouteData.total_load).sum : Rat) / (args.num_vehicles : Rat)
        total_time :=
          if hasTime then some (((rds.map (fun rd => rd.total_time.getD 0)).sum : Nat))
          else none
        average_route_time :=
          if hasTime then
            some (((((rds.map (fun rd => rd.total_time.getD 0)).sum : Nat) : Rat)) /
              (args.num_vehicles : Rat))
          else none } := by
  unfold extract_solution at h
  cases hgo : extractRoutesGo args hasTime sol 0 args.num_vehicles with
  | error e => simp only [hgo] at h; exact Except.noConfusion h
  | ok rds =>
    simp only [hgo] at h
    by_cases hnv : args.num_vehicles = 0
    · rw [if_pos hnv] at h; simp at h
    · rw [if_neg hnv] at h
      simp only [Except.ok.injEq] at h
      subst h
      exact ⟨rds, rfl, hnv, rfl, rfl, rfl, rfl⟩

/-- A successful optimize call is exactly a successful extraction of the
solver's assignment. -/
lemma optimize_success_extract (args : OptArgs) (solve : BuiltModel → SolveOutcome)
    (sol : AbstractSolution) (hsv : solve (buildModel args) = SolveOutcome.found sol)
    (hs : (optimize args solve).success = true) :
    extract_solution args sol args.time_windows.isSome = Except.ok (optimize args solve) := by
  unfold optimize at hs ⊢
  simp only [hsv] at hs ⊢
  cases hex : extract_solution args sol args.time_windows.isSome with
  | ok res => rfl
  | error e => simp [hex] at hs

/-- A found assignment whose extraction raises an exception is returned as
success false carrying the exception text. -/
lemma optimize_found_error (args : OptArgs) (solve : BuiltModel → SolveOutcome)
    (sol : AbstractSolution) (e : String)
    (hsv : solve (buildModel args) = SolveOutcome.found sol)
    (hex : extract_solution args sol args.time_windows.isSome = Except.error e) :
    optimize args solve =
      { success := false, routes := none, summary := none, error := some e } := by
  unfold optimize
  simp only [hsv, hex]

/-- A found assignment whose extraction succeeds is returned as is. -/
lemma optimize_found_ok (args : OptArgs) (solve : BuiltModel → SolveOutcome)
    (sol : AbstractSolution) (res : OptResult)
    (hsv : solve (buildModel args) = SolveOutcome.found sol)
    (hex : extract_solution args sol args.time_windows.isSome = Except.ok res) :
    optimize args solve = res := by
  unfold optimize
  simp only [hsv, hex]

/-- The vehicle loop succeeds when every vehicle in its range has a nonzero
capacity and the shared inputs are well formed. -/
lemma extractRoutesGo_isOk (args : OptArgs) (hasTime : Bool) (sol : AbstractSolution)
    (hd : args.demands.length = args.distance_matrix.length)
    (hsq : ∀ row ∈ args.distance_matrix, row.length = args.distance_matrix.length)
    (hdep : args.depot < args.distance_matrix.length)
    (hbound : ∀ r ∈ sol.routes, ∀ x ∈ r, x < args.distance_matrix.length) :
    ∀ (k v : Nat), (∀ i, i < k → v + i < args.vehicle_capacities.length) →
      (∀ i, i < k → args.vehicle_capacities.getD (v + i) 0 ≠ 0) →
      ∃ rds, extractRoutesGo args hasTime sol v k = Except.ok rds := by
  intro k
  induction k with
  | zero => intro v _ _; exact ⟨[], rfl⟩
  | succ k2 ih =>
    intro v hlen hcap
    have hbv : ∀ x ∈ sol.routes.getD v [], x < args.distance_matrix.length := by
      by_cases hvr : v < sol.routes.length
      · intro x hx
        rw [List.getD_eq_getElem sol.routes [] hvr] at hx
        exact hbound _ (List.getElem_mem hvr) x hx
      · intro x hx
        rw [List.getD_eq_default sol.routes [] (by omega)] at hx
        simp at hx
    obtain ⟨rd, hrd⟩ := extractRoute_isOk args.distance_matrix args.demands
      args.vehicle_capacities hasTime (sol.times v) args.depot v (sol.routes.getD v [])
      hd hsq hdep hbv (by simpa using hlen 0 (Nat.succ_pos _))
      (by simpa using hcap 0 (Nat.succ_pos _))
    obtain ⟨rds2, hrec⟩ := ih (v + 1)
      (fun i hi => by have h2 := hlen (i + 1) (by omega); omega)
      (fun i hi => by
        rw [Nat.add_assoc, Nat.add_comm 1 i]
        exact hcap (i + 1) (by omega))
    cases hw : extractRoutesGo args hasTime sol v (k2 + 1) with
    | ok rds => exact ⟨rds, rfl⟩
    | error e =>
      simp only [extractRoutesGo, hrd, hrec] at hw
      exact (Except.noConfusion hw)

/-- The vehicle loop aborts with the division-by-zero error when some
vehicle in its range has capacity zero and the shared inputs are well
formed. -/
lemma extractRoutesGo_err_cap0 (args : OptArgs) (hasTime : Bool) (sol : AbstractSolution)
    (hd : args.demands.length = args.distance_matrix.length)
    (hsq : ∀ row ∈ args.distance_matrix, row.length = args.distance_matrix.length)
    (hdep : args.depot < args.distance_matrix.length)
    (hbound : ∀ r ∈ sol.routes, ∀ x ∈ r, x < args.distance_matrix.length) :
    ∀ (k v : Nat), (∀ i, i < k → v + i < args.vehicle_capacities.length) →
      (∃ i, i < k ∧ args.vehicle_capacities.getD (v + i) 0 = 0) →
      extractRoutesGo args hasTime sol v k = Except.error divZeroMsg := by
  intro k
  induction k with
  | zero => intro v _ hz; obtain ⟨i, hi, _⟩ := hz; omega
  | succ k2 ih =>
    intro v hlen hz
    have hbv : ∀ x ∈ sol.routes.getD v [], x < args.distance_matrix.length := by
      by_cases hvr : v < sol.routes.length
      · intro x hx
        rw [List.getD_eq_getElem sol.routes [] hvr] at hx
        exact hbound _ (List.getElem_mem hvr) x hx
      · intro x hx
        rw [List.getD_eq_default sol.routes [] (by omega)] at hx
        simp at hx
    by_cases h0 : args.vehicle_capacities.getD v 0 = 0
    · have herr := extractRoute_err_cap0 args.distance_matrix args.demands
        args.vehicle_capacities hasTime (sol.times v) args.depot v (sol.routes.getD v [])
        hd hsq hdep hbv (by simpa using hlen 0 (Nat.succ_pos _)) h0
      simp only [extractRoutesGo, herr]
    · obtain ⟨i, hi, hzi⟩ := hz
      have hine : i ≠ 0 := by
        intro hieq
        subst hieq
        rw [Nat.add_zero] at hzi
        exact h0 hzi
      obtain ⟨j, rfl⟩ : ∃ j, i = j + 1 := ⟨i - 1, by omega⟩
      have hrec := ih (v + 1)
        (fun i2 hi2 => by have h2 := hlen (i2 + 1) (by omega); omega)
        ⟨j, by omega, by rw [Nat.add_assoc, Nat.add_comm 1 j]; exact hzi⟩
      obtain ⟨rd, hrd⟩ := extractRoute_isOk args.distance_matrix args.demands
        args.vehicle_capacities hasTime (sol.times v) args.depot v (sol.routes.getD v [])
        hd hsq hdep hbv (by simpa using hlen 0 (Nat.succ_pos _)) h0
      simp only [extractRoutesGo, hrd, hrec]

/-- The full extraction succeeds when the vehicle loop does and the vehicle
count is nonzero. -/
lemma extract_solution_ok_of_go (args : OptArgs) (sol : AbstractSolution) (hasTime : Bool)
    (rds : List RouteData)
    (hgo : extractRoutesGo args hasTime sol 0 args.num_vehicles = Except.ok rds)
    (hnv : args.num_vehicles ≠ 0) :
    ∃ res, extract_solution args sol hasTime = Except.ok res := by
  cases hw : extract_solution args sol hasTime with
  | ok res => exact ⟨res, rfl⟩
  | error e =>
    unfold extract_solution at hw
    simp only [hgo, if_neg hnv] at hw
    exact (Except.noConfusion hw)

/-- The full extraction propagates the vehicle loop's division error. -/
lemma extract_solution_err_of_go (args : OptArgs) (sol : AbstractSolution) (hasTime : Bool)
    (hgo : extractRoutesGo args hasTime sol 0 args.num_vehicles = Except.error divZeroMsg) :
    extract_solution args sol hasTime = Except.error divZeroMsg := by
  unfold extract_solution
  simp only [hgo]

/-- C1 (corrected) counterexample: the claim says a caller who gets no
solution can tell infeasibility from timeout apart in the returned value.
On the code both solver outcomes produce the identical value with success
false and the single undifferentiated message of app.py line 168, shown
here on the concrete scenario-1 input. -/
theorem infeasible_and_timeout_reported_identically :
    optimize args3 solveInfeasibleFn = optimize args3 solveTimeoutFn ∧
    (optimize args3 solveInfeasibleFn).success = false ∧
    (optimize args3 solveInfeasibleFn).error = some noSolutionMsg :=
  ⟨rfl, rfl, rfl⟩

/-- C1 (corrected, amended): whenever the solver returns no assignment, for
genuine infeasibility and for time-budget exhaustion alike, optimize
returns one and the same value, success false with the error string of
noSolutionMsg; the two outcomes are not reported differently. -/
theorem no_solution_outcomes_collapsed (args : OptArgs) (solve : BuiltModel → SolveOutcome)
    (h : solve (buildModel args) = SolveOutcome.infeasible ∨
         solve (buildModel args) = SolveOutcome.timeout) :
    optimize args solve = noSolutionResult := by
  unfold optimize
  rcases h with h | h <;> rw [h]

/-- Witness for the amended C1 at the concrete scenario-1 input with an
infeasibility outcome. -/
theorem no_solution_outcomes_collapsed_witness :
    (solveInfeasibleFn (buildModel args3) = SolveOutcome.infeasible ∨
     solveInfeasibleFn (buildModel args3) = SolveOutcome.timeout) ∧
    optimize args3 solveInfeasibleFn = noSolutionResult :=
  ⟨Or.inl rfl, no_solution_outcomes_collapsed args3 solveInfeasibleFn (Or.inl rfl)⟩

/-- C2 (corrected) counterexample: on argsBadTW, whose location 1 has
earliest 10 greater than latest 5, no validation error is raised or
reported before search: the inverted window is registered on the model as
a solver constraint, and the result of the call is decided by the solver
oracle — the call even succeeds when the oracle returns an assignment, and
returns the generic no-solution value otherwise.  The code defines no
ValidationError anywhere. -/
theorem no_validation_before_search_counterexample :
    (buildModel argsBadTW).time_window_constraints = [(1, 10, 5)] ∧
    (optimize argsBadTW solveFoundBadTW).success = true ∧
    optimize argsBadTW solveInfeasibleFn = noSolutionResult :=
  ⟨rfl, by decide, rfl⟩

/-- C2 (corrected, amended): the core performs no time-window validation.
An input containing a non-depot location whose window has earliest greater
than latest proceeds to model construction — the inverted window is
registered as a time-dimension constraint — and on to the solver; when the
solver then returns no assignment, the caller receives the generic
no-solution failure value, not a validation error. -/
theorem invalid_time_window_reaches_solver (args : OptArgs) (tws : List (Nat × Nat))
    (i e l : Nat) (htw : args.time_windows = some tws)
    (hi : tws[i]? = some (e, l)) (hne : i ≠ args.depot) (_hgt : l < e) :
    (i, e, l) ∈ (buildModel args).time_window_constraints ∧
    optimize args solveInfeasibleFn = noSolutionResult ∧
    optimize args solveTimeoutFn = noSolutionResult := by
  refine ⟨?_, rfl, rfl⟩
  have hmem := mem_registeredTimeWindowsFrom args.depot tws 0 i e l hi
    (by simpa using hne)
  simp only [Nat.zero_add] at hmem
  simp only [buildModel, htw]
  exact hmem

/-- Witness for the amended C2 at the concrete inverted-window input. -/
theorem invalid_time_window_reaches_solver_witness :
    (argsBadTW.time_windows = some [(0, 480), (10, 5)]) ∧
    ([((0 : Nat), (480 : Nat)), (10, 5)][1]? = some (10, 5)) ∧ (1 ≠ argsBadTW.depot) ∧ (5 < 10) ∧
    ((1, 10, 5) ∈ (buildModel argsBadTW).time_window_constraints ∧
     optimize argsBadTW solveInfeasibleFn = noSolutionResult ∧
     optimize argsBadTW solveTimeoutFn = noSolutionResult) :=
  ⟨rfl, rfl, by decide, by decide,
    invalid_time_window_reaches_solver argsBadTW [(0, 480), (10, 5)] 1 10 5 rfl rfl
      (by decide) (by decide)⟩

/-- C5 (confirmed): whenever the solver finds no solution — for example
because total demand exceeds total fleet capacity — optimize returns
normally with success false and an error string; the try/except wrapper
means no exception reaches the caller, which the totality of the embedded
optimize reflects. -/
theorem no_solution_returns_failure_value (args : OptArgs) (solve : BuiltModel → SolveOutcome)
    (h : solve (buildModel args) = SolveOutcome.infeasible ∨
         solve (buildModel args) = SolveOutcome.timeout) :
    (optimize args solve).success = false ∧
    (optimize args solve).error = some noSolutionMsg := by
  have hc := no_solution_outcomes_collapsed args solve h
  rw [hc]
  exact ⟨rfl, rfl⟩

/-- Witness for C5 at a concrete input whose solve run times out. -/
theorem no_solution_returns_failure_value_witness :
    (solveTimeoutFn (buildModel args3) = SolveOutcome.infeasible ∨
     solveTimeoutFn (buildModel args3) = SolveOutcome.timeout) ∧
    (optimize args3 solveTimeoutFn).success = false ∧
    (optimize args3 solveTimeoutFn).error = some noSolutionMsg :=
  ⟨Or.inr rfl, no_solution_returns_failure_value args3 solveTimeoutFn (Or.inr rfl)⟩

/-- C6 (confirmed): with time windows requested (and no explicit time
matrix parameter existing at all), the derived time matrix entry is the
floor of distance over 667 meters per minute, and the registered time
transit between consecutive stops is that entry plus the service time of
the origin stop, service times defaulting to zero when not supplied. -/
theorem time_matrix_is_floor_division (args : OptArgs) (i j dij : Nat)
    (htw : args.time_windows.isSome = true)
    (hi : i < args.distance_matrix.length)
    (hj : j < (args.distance_matrix.getD i []).length)
    (hd : (args.distance_matrix.getD i []).getD j 0 = dij) :
    (buildModel args).time_transit = some (timeTransit args) ∧
    ((timeMatrixOf args.distance_matrix).getD i []).getD j 0 = dij / speed_m_per_min ∧
    Nat.floor ((dij : ℚ) / (speed_m_per_min : ℚ)) = dij / speed_m_per_min ∧
    timeTransit args i j = dij / speed_m_per_min +
      (match args.service_times with
       | some st => st.getD i 0
       | none => 0) := by
  have hrow : (timeMatrixOf args.distance_matrix).getD i [] =
      (args.distance_matrix.getD i []).map (fun dist => dist / speed_m_per_min) := by
    unfold timeMatrixOf
    exact getD_map_lt _ [] [] args.distance_matrix i hi
  have hentry : ((timeMatrixOf args.distance_matrix).getD i []).getD j 0 =
      dij / speed_m_per_min := by
    rw [hrow, getD_map_lt _ 0 0 _ j hj, hd]
  refine ⟨by simp [buildModel, htw], hentry, ?_, ?_⟩
  · rw [show ((speed_m_per_min : Nat) : ℚ) = ((speed_m_per_min : Nat) : ℚ) from rfl,
      Nat.floor_div_nat (dij : ℚ) speed_m_per_min, Nat.floor_natCast]
  · unfold timeTransit
    rw [hentry]
    cases hst : args.service_times with
    | some st => simp [serviceTimesOf, hst]
    | none => simp [serviceTimesOf, hst, getD_replicate_zero]

/-- Witness for C6 at the scenario-1 input with wide time windows, entry
(0, 1) with distance 100 meters. -/
theorem time_matrix_is_floor_division_witness :
    (args3tw.time_windows.isSome = true) ∧ (0 < args3tw.distance_matrix.length) ∧
    (1 < (args3tw.distance_matrix.getD 0 []).length) ∧
    ((args3tw.distance_matrix.getD 0 []).getD 1 0 = 100) ∧
    ((buildModel args3tw).time_transit = some (timeTransit args3tw) ∧
     ((timeMatrixOf args3tw.distance_matrix).getD 0 []).getD 1 0 = 100 / speed_m_per_min ∧
     Nat.floor ((100 : ℚ) / (speed_m_per_min : ℚ)) = 100 / speed_m_per_min ∧
     timeTransit args3tw 0 1 = 100 / speed_m_per_min +
       (match args3tw.service_times with
        | some st => st.getD 0 0
        | none => 0)) :=
  ⟨rfl, by decide, by decide, rfl,
    time_matrix_is_floor_division args3tw 0 1 100 rfl (by decide) (by decide) rfl⟩

/-- C3 (confirmed): in every successful result, each route's stop sequence
starts at the depot and ends at the depot with no depot stop in between,
and every non-depot location index below the location count appears in
exactly one route, exactly once, across the returned routes. -/
theorem returned_routes_cover_each_location_once (args : OptArgs)
    (solve : BuiltModel → SolveOutcome) (sol : AbstractSolution)
    (hsv : solve (buildModel args) = SolveOutcome.found sol)
    (hval : sol.Valid args.distance_matrix.length args.depot args.num_vehicles)
    (hs : (optimize args solve).success = true) :
    (∀ rd ∈ resultRoutes (optimize args solve), ∃ mid,
      rd.stops.map StopData.location_index = args.depot :: (mid ++ [args.depot]) ∧
      args.depot ∉ mid) ∧
    (∀ x, x < args.distance_matrix.length → x ≠ args.depot →
      ((resultRoutes (optimize args solve)).map
        (fun rd => rd.stops.map StopData.location_index)).flatten.count x = 1) := by
  have hex := optimize_success_extract args solve sol hsv hs
  obtain ⟨rds, hgo, hnv, hsucc, hroutes, herr, hsumm⟩ :=
    extract_solution_ok_spec args sol args.time_windows.isSome (optimize args solve) hex
  have hrr : resultRoutes (optimize args solve) = rds := by
    unfold resultRoutes; rw [hroutes]; rfl
  have hf2 := extractRoutesGo_ok_forall2 args args.time_windows.isSome sol
    args.num_vehicles 0 rds hgo
  rw [← List.range_eq_range'] at hf2
  constructor
  · rw [hrr]
    intro rd hrd
    obtain ⟨i, hi, hRi⟩ := forall2_mem_right hf2 rd hrd
    have hilt : i < sol.routes.length := by
      rw [hval.1]; exact List.mem_range.mp hi
    have hmemr : sol.routes.getD i [] ∈ sol.routes := by
      rw [List.getD_eq_getElem sol.routes [] hilt]; exact List.getElem_mem hilt
    refine ⟨sol.routes.getD i [], ?_, ?_⟩
    · exact (extractRoute_ok_spec _ _ _ _ _ _ _ _ rd hRi).1
    · intro hdepmem
      exact (hval.2.1 _ hmemr args.depot hdepmem).2 rfl
  · intro x hx hxd
    have hmapeq : rds.map (fun rd => rd.stops.map StopData.location_index) =
        (List.range args.num_vehicles).map
          (fun i => args.depot :: (sol.routes.getD i [] ++ [args.depot])) :=
      forall2_map_eq (fun rd => rd.stops.map StopData.location_index)
        (fun i => args.depot :: (sol.routes.getD i [] ++ [args.depot]))
        (fun i rd hR => (extractRoute_ok_spec args.distance_matrix args.demands
          args.vehicle_capacities args.time_windows.isSome (sol.times i) args.depot i
          (sol.routes.getD i []) rd hR).1) hf2
    have hmap2 : (List.range args.num_vehicles).map
        (fun i => args.depot :: (sol.routes.getD i [] ++ [args.depot])) =
        sol.routes.map (fun r => args.depot :: (r ++ [args.depot])) := by
      rw [← hval.1,
        show (fun i => args.depot :: (sol.routes.getD i [] ++ [args.depot])) =
          ((fun r => args.depot :: (r ++ [args.depot])) ∘ (fun i => sol.routes.getD i []))
          from rfl,
        ← List.map_map, map_getD_range]
    rw [hrr, hmapeq, hmap2, List.count_flatten, List.map_map]
    have hdx : ¬ (args.depot = x) := fun he => hxd he.symm
    have hcnt : ∀ r ∈ sol.routes,
        (List.count x ∘ fun r => args.depot :: (r ++ [args.depot])) r = List.count x r := by
      intro r hr
      simp [List.count_cons, List.count_append, hdx]
    rw [List.map_congr_left hcnt, ← List.count_flatten]
    exact hval.2.2 x hx hxd

/-- Witness for C3 at the scenario-1 input with the assignment that serves
location 1 with vehicle 0 and location 2 with vehicle 1. -/
theorem returned_routes_cover_each_location_once_witness :
    (solveFound3 (buildModel args3) = SolveOutcome.found sol3) ∧
    sol3.Valid args3.distance_matrix.length args3.depot args3.num_vehicles ∧
    (optimize args3 solveFound3).success = true ∧
    ((∀ rd ∈ resultRoutes (optimize args3 solveFound3), ∃ mid,
      rd.stops.map StopData.location_index = args3.depot :: (mid ++ [args3.depot]) ∧
      args3.depot ∉ mid) ∧
    (∀ x, x < args3.distance_matrix.length → x ≠ args3.depot →
      ((resultRoutes (optimize args3 solveFound3)).map
        (fun rd => rd.stops.map StopData.location_index)).flatten.count x = 1)) :=
  ⟨rfl, by decide, by decide,
    returned_routes_cover_each_location_once args3 solveFound3 sol3 rfl (by decide) (by decide)⟩

/-- C4 (confirmed): for a successful result on a complete assignment (every
non-depot location visited exactly once) with zero depot demand, the
summary's total_load equals the sum of the demand vector, and total_demand
reports the same value. -/
theorem summary_total_load_conserves_demands (args : OptArgs)
    (solve : BuiltModel → SolveOutcome) (sol : AbstractSolution)
    (hsv : solve (buildModel args) = SolveOutcome.found sol)
    (hval : sol.Valid args.demands.length args.depot args.num_vehicles)
    (hd0 : args.demands.getD args.depot 0 = 0)
    (hs : (optimize args solve).success = true) :
    (resultSummary (optimize args solve)).total_load = args.demands.sum ∧
    (resultSummary (optimize args solve)).total_demand = args.demands.sum := by
  have hex := optimize_success_extract args solve sol hsv hs
  obtain ⟨rds, hgo, hnv, hsucc, hroutes, herr, hsumm⟩ :=
    extract_solution_ok_spec args sol args.time_windows.isSome (optimize args solve) hex
  have hload_eq : (resultSummary (optimize args solve)).total_load =
      (rds.map RouteData.total_load).sum := by
    unfold resultSummary; rw [hsumm]; rfl
  have hdemand_eq : (resultSummary (optimize args solve)).total_demand =
      args.demands.sum := by
    unfold resultSummary; rw [hsumm]; rfl
  refine ⟨?_, hdemand_eq⟩
  rw [hload_eq]
  have hf2 := extractRoutesGo_ok_forall2 args args.time_windows.isSome sol
    args.num_vehicles 0 rds hgo
  rw [← List.range_eq_range'] at hf2
  have hmapeq : rds.map RouteData.total_load =
      (List.range args.num_vehicles).map
        (fun i => ((args.depot :: sol.routes.getD i []).map
          (fun x => args.demands.getD x 0)).sum) :=
    forall2_map_eq RouteData.total_load
      (fun i => ((args.depot :: sol.routes.getD i []).map
        (fun x => args.demands.getD x 0)).sum)
      (fun i rd hR => (extractRoute_ok_spec args.distance_matrix args.demands
        args.vehicle_capacities args.time_windows.isSome (sol.times i) args.depot i
        (sol.routes.getD i []) rd hR).2.2.1) hf2
  rw [hmapeq, ← hval.1,
    show (fun i => ((args.depot :: sol.routes.getD i []).map
        (fun x => args.demands.getD x 0)).sum) =
      ((fun r => ((args.depot :: r).map (fun x => args.demands.getD x 0)).sum) ∘
        (fun i => sol.routes.getD i [])) from rfl,
    ← List.map_map, map_getD_range]
  have hcons : ∀ r ∈ sol.routes,
      ((args.depot :: r).map (fun x => args.demands.getD x 0)).sum =
        (List.sum ∘ List.map (fun x => args.demands.getD x 0)) r := by
    intro r hr
    simp only [Function.comp_apply, List.map_cons, List.sum_cons, hd0, Nat.zero_add]
  rw [List.map_congr_left hcons, ← List.map_map, ← List.sum_flatten, ← List.map_flatten]
  exact sum_getD_of_counts args.demands args.depot sol.routes.flatten
    (fun x hx => by
      obtain ⟨r, hr, hxr⟩ := List.mem_flatten.mp hx
      exact hval.2.1 r hr x hxr)
    (fun x hx hxd => hval.2.2 x hx hxd) hd0

/-- Witness for C4 at the scenario-1 input: total load 15 equals the demand
sum. -/
theorem summary_total_load_conserves_demands_witness :
    (solveFound3 (buildModel args3) = SolveOutcome.found sol3) ∧
    sol3.Valid args3.demands.length args3.depot args3.num_vehicles ∧
    (args3.demands.getD args3.depot 0 = 0) ∧
    (optimize args3 solveFound3).success = true ∧
    ((resultSummary (optimize args3 solveFound3)).total_load = args3.demands.sum ∧
     (resultSummary (optimize args3 solveFound3)).total_demand = args3.demands.sum) :=
  ⟨rfl, by decide, by decide, by decide,
    summary_total_load_conserves_demands args3 solveFound3 sol3 rfl (by decide) (by decide)
      (by decide)⟩

/-- C7 (confirmed): the summary's num_vehicles_used is the number of routes
with strictly more than two stops, and for each returned route having more
than two stops is equivalent to visiting some non-depot location. -/
theorem num_vehicles_used_counts_nontrivial_routes (args : OptArgs)
    (solve : BuiltModel → SolveOutcome) (sol : AbstractSolution)
    (hsv : solve (buildModel args) = SolveOutcome.found sol)
    (hval : sol.Valid args.distance_matrix.length args.depot args.num_vehicles)
    (hs : (optimize args solve).success = true) :
    (resultSummary (optimize args solve)).num_vehicles_used =
      ((resultRoutes (optimize args solve)).filter
        (fun rd => 2 < rd.stops.length)).length ∧
    (∀ rd ∈ resultRoutes (optimize args solve),
      (2 < rd.stops.length ↔ ∃ s ∈ rd.stops, s.location_index ≠ args.depot)) := by
  have hex := optimize_success_extract args solve sol hsv hs
  obtain ⟨rds, hgo, hnv, hsucc, hroutes, herr, hsumm⟩ :=
    extract_solution_ok_spec args sol args.time_windows.isSome (optimize args solve) hex
  have hrr : resultRoutes (optimize args solve) = rds := by
    unfold resultRoutes; rw [hroutes]; rfl
  have hrs : (resultSummary (optimize args solve)).num_vehicles_used =
      (rds.filter (fun rd => 2 < rd.stops.length)).length := by
    unfold resultSummary; rw [hsumm]; rfl
  have hf2 := extractRoutesGo_ok_forall2 args args.time_windows.isSome sol
    args.num_vehicles 0 rds hgo
  rw [← List.range_eq_range'] at hf2
  constructor
  · rw [hrr, hrs]
  · rw [hrr]
    intro rd hrd
    obtain ⟨i, hi, hRi⟩ := forall2_mem_right hf2 rd hrd
    have hilt : i < sol.routes.length := by
      rw [hval.1]; exact List.mem_range.mp hi
    have hmemr : sol.routes.getD i [] ∈ sol.routes := by
      rw [List.getD_eq_getElem sol.routes [] hilt]; exact List.getElem_mem hilt
    obtain ⟨hlocs, hlen, _, _, _, _, _⟩ := extractRoute_ok_spec _ _ _ _ _ _ _ _ rd hRi
    constructor
    · intro hgt
      have hne : sol.routes.getD i [] ≠ [] := by
        intro he
        rw [he] at hlen
        simp at hlen
        omega
      obtain ⟨y, hy⟩ := List.exists_mem_of_ne_nil _ hne
      have hyloc : y ∈ rd.stops.map StopData.location_index := by
        rw [hlocs]
        exact List.mem_cons_of_mem _ (List.mem_append_left _ hy)
      obtain ⟨s, hsmem, hsl⟩ := List.mem_map.mp hyloc
      exact ⟨s, hsmem, by rw [hsl]; exact (hval.2.1 _ hmemr y hy).2⟩
    · rintro ⟨s, hsmem, hsne⟩
      by_contra hle
      have hint : sol.routes.getD i [] = [] := by
        have hlen0 : (sol.routes.getD i []).length = 0 := by omega
        exact List.eq_nil_of_length_eq_zero hlen0
      rw [hint] at hlocs
      have hsl : s.location_index ∈ rd.stops.map StopData.location_index :=
        List.mem_map_of_mem _ hsmem
      rw [hlocs] at hsl
      simp at hsl
      exact hsne hsl

/-- Witness for C7 at the scenario-1 input: both routes are nontrivial and
num_vehicles_used is 2. -/
theorem num_vehicles_used_counts_nontrivial_routes_witness :
    (solveFound3 (buildModel args3) = SolveOutcome.found sol3) ∧
    sol3.Valid args3.distance_matrix.length args3.depot args3.num_vehicles ∧
    (optimize args3 solveFound3).success = true ∧
    ((resultSummary (optimize args3 solveFound3)).num_vehicles_used =
      ((resultRoutes (optimize args3 solveFound3)).filter
        (fun rd => 2 < rd.stops.length)).length ∧
    (∀ rd ∈ resultRoutes (optimize args3 solveFound3),
      (2 < rd.stops.length ↔ ∃ s ∈ rd.stops, s.location_index ≠ args3.depot))) :=
  ⟨rfl, by decide, by decide,
    num_vehicles_used_counts_nontrivial_routes args3 solveFound3 sol3 rfl (by decide)
      (by decide)⟩

/-- C8 (confirmed): cumulative loads are recomputed from the demand vector:
each non-final stop's demand field is the demand-vector entry of its
location, the k-th stop's cumulative load is the sum of the demands of
stops 1 through k of that route, and the final depot stop carries demand 0
and the route's total load. -/
theorem stop_loads_recomputed_from_demands (args : OptArgs)
    (solve : BuiltModel → SolveOutcome) (sol : AbstractSolution)
    (hsv : solve (buildModel args) = SolveOutcome.found sol)
    (hd0 : args.demands.getD args.depot 0 = 0)
    (hs : (optimize args solve).success = true) :
    ∀ rd ∈ resultRoutes (optimize args solve),
      (∀ k, k + 1 < rd.stops.length →
        (rd.stops.getD k default).demand =
          args.demands.getD ((rd.stops.getD k default).location_index) 0) ∧
      (∀ k, k < rd.stops.length →
        (rd.stops.getD k default).cumulative_load =
          (((rd.stops.take (k + 1)).map StopData.demand).drop 1).sum) ∧
      rd.stops.getLast?.map StopData.demand = some 0 ∧
      rd.stops.getLast?.map StopData.cumulative_load = some rd.total_load := by
  have hex := optimize_success_extract args solve sol hsv hs
  obtain ⟨rds, hgo, hnv, hsucc, hroutes, herr, hsumm⟩ :=
    extract_solution_ok_spec args sol args.time_windows.isSome (optimize args solve) hex
  have hrr : resultRoutes (optimize args solve) = rds := by
    unfold resultRoutes; rw [hroutes]; rfl
  have hf2 := extractRoutesGo_ok_forall2 args args.time_windows.isSome sol
    args.num_vehicles 0 rds hgo
  rw [← List.range_eq_range'] at hf2
  rw [hrr]
  intro rd hrd
  obtain ⟨i, hi, hRi⟩ := forall2_mem_right hf2 rd hrd
  obtain ⟨hlocs, hlen, hload, hdemand, hcum, hlast_d, hlast_c⟩ :=
    extractRoute_ok_spec _ _ _ _ _ _ _ _ rd hRi
  refine ⟨hdemand, ?_, hlast_d, hlast_c⟩
  intro k hk
  have hcum_k := hcum k hk
  obtain ⟨s0, rest, hsr⟩ : ∃ s0 rest, rd.stops = s0 :: rest := by
    cases hstops : rd.stops with
    | nil => rw [hstops] at hlen; simp at hlen
    | cons a t => exact ⟨a, t, rfl⟩
  have hs0loc : s0.location_index = args.depot := by
    have h2 := hlocs
    rw [hsr, List.map_cons] at h2
    injection h2 with h3 h4
  have hs0dem : s0.demand = 0 := by
    have h5 := hdemand 0 (by omega)
    rw [hsr] at h5
    simp only [List.getD_cons_zero] at h5
    rw [h5, hs0loc, hd0]
  rw [hcum_k, hsr, List.take_succ_cons, List.map_cons]
  simp only [List.sum_cons, List.drop_succ_cons, List.drop_zero]
  rw [hs0dem, Nat.zero_add]

/-- Witness for C8 at the scenario-1 input. -/
theorem stop_loads_recomputed_from_demands_witness :
    (solveFound3 (buildModel args3) = SolveOutcome.found sol3) ∧
    (args3.demands.getD args3.depot 0 = 0) ∧
    (optimize args3 solveFound3).success = true ∧
    (∀ rd ∈ resultRoutes (optimize args3 solveFound3),
      (∀ k, k + 1 < rd.stops.length →
        (rd.stops.getD k default).demand =
          args3.demands.getD ((rd.stops.getD k default).location_index) 0) ∧
      (∀ k, k < rd.stops.length →
        (rd.stops.getD k default).cumulative_load =
          (((rd.stops.take (k + 1)).map StopData.demand).drop 1).sum) ∧
      rd.stops.getLast?.map StopData.demand = some 0 ∧
      rd.stops.getLast?.map StopData.cumulative_load = some rd.total_load) :=
  ⟨rfl, by decide, by decide,
    stop_loads_recomputed_from_demands args3 solveFound3 sol3 rfl (by decide) (by decide)⟩

/-- C10 (confirmed): the capacity utilization division is unguarded.  With
well-formed shapes and a found assignment, extraction succeeds whenever
every vehicle capacity is nonzero; and whenever some vehicle has capacity
zero, extraction raises ZeroDivisionError, so optimize returns success
false carrying that error text even though the solver found a solution. -/
theorem zero_capacity_vehicle_breaks_extraction (args : OptArgs)
    (solve : BuiltModel → SolveOutcome) (sol : AbstractSolution)
    (hsv : solve (buildModel args) = SolveOutcome.found sol)
    (hval : sol.Valid args.distance_matrix.length args.depot args.num_vehicles)
    (hdl : args.demands.length = args.distance_matrix.length)
    (hsq : ∀ row ∈ args.distance_matrix, row.length = args.distance_matrix.length)
    (hdep : args.depot < args.distance_matrix.length)
    (hcl : args.vehicle_capacities.length = args.num_vehicles)
    (hnv : 0 < args.num_vehicles) :
    ((∀ c ∈ args.vehicle_capacities, c ≠ 0) → (optimize args solve).success = true) ∧
    ((0 : Nat) ∈ args.vehicle_capacities →
      (optimize args solve).success = false ∧
      (optimize args solve).error = some divZeroMsg) := by
  have hbound : ∀ r ∈ sol.routes, ∀ x ∈ r, x < args.distance_matrix.length :=
    fun r hr x hx => (hval.2.1 r hr x hx).1
  constructor
  · intro hcaps
    have hlen : ∀ i, i < args.num_vehicles → 0 + i < args.vehicle_capacities.length := by
      intro i hi; omega
    have hcapnz : ∀ i, i < args.num_vehicles →
        args.vehicle_capacities.getD (0 + i) 0 ≠ 0 := by
      intro i hi
      have hilt : 0 + i < args.vehicle_capacities.length := by omega
      rw [List.getD_eq_getElem _ _ hilt]
      exact hcaps _ (List.getElem_mem hilt)
    obtain ⟨rds, hgo⟩ := extractRoutesGo_isOk args args.time_windows.isSome sol hdl hsq hdep
      hbound args.num_vehicles 0 hlen hcapnz
    obtain ⟨res, hok⟩ :=
      extract_solution_ok_of_go args sol args.time_windows.isSome rds hgo (by omega)
    rw [optimize_found_ok args solve sol res hsv hok]
    obtain ⟨_, _, _, hsucc, _, _, _⟩ :=
      extract_solution_ok_spec args sol args.time_windows.isSome res hok
    exact hsucc
  · intro h0
    obtain ⟨i0, hi0lt, hi0⟩ := List.getElem_of_mem h0
    have hz : ∃ i, i < args.num_vehicles ∧
        args.vehicle_capacities.getD (0 + i) 0 = 0 := by
      refine ⟨i0, by omega, ?_⟩
      rw [Nat.zero_add, List.getD_eq_getElem _ _ hi0lt, hi0]
    have hlen : ∀ i, i < args.num_vehicles → 0 + i < args.vehicle_capacities.length := by
      intro i hi; omega
    have herr := extractRoutesGo_err_cap0 args args.time_windows.isSome sol hdl hsq hdep
      hbound args.num_vehicles 0 hlen hz
    have hexErr := extract_solution_err_of_go args sol args.time_windows.isSome herr
    rw [optimize_found_error args solve sol divZeroMsg hsv hexErr]
    exact ⟨rfl, rfl⟩

/-- Witness for C10 at the input whose second vehicle has capacity zero:
the solver-found assignment is destroyed by the division error. -/
theorem zero_capacity_vehicle_breaks_extraction_witness :
    (solveFoundZeroCap (buildModel argsZeroCap) = SolveOutcome.found solZeroCap) ∧
    solZeroCap.Valid argsZeroCap.distance_matrix.length argsZeroCap.depot
      argsZeroCap.num_vehicles ∧
    (argsZeroCap.demands.length = argsZeroCap.distance_matrix.length) ∧
    (∀ row ∈ argsZeroCap.distance_matrix,
      row.length = argsZeroCap.distance_matrix.length) ∧
    (argsZeroCap.depot < argsZeroCap.distance_matrix.length) ∧
    (argsZeroCap.vehicle_capacities.length = argsZeroCap.num_vehicles) ∧
    (0 < argsZeroCap.num_vehicles) ∧
    (((∀ c ∈ argsZeroCap.vehicle_capacities, c ≠ 0) →
        (optimize argsZeroCap solveFoundZeroCap).success = true) ∧
     ((0 : Nat) ∈ argsZeroCap.vehicle_capacities →
        (optimize argsZeroCap solveFoundZeroCap).success = false ∧
        (optimize argsZeroCap solveFoundZeroCap).error = some divZeroMsg)) :=
  ⟨rfl, by decide, by decide, by decide, by decide, by decide, by decide,
    zero_capacity_vehicle_breaks_extraction argsZeroCap solveFoundZeroCap solZeroCap rfl
      (by decide) (by decide) (by decide) (by decide) (by decide) (by decide)⟩

/-- C9 (confirmed): optimize leaves the optimizer instance unchanged, its
result depends only on the call's arguments, and after any sequence of
calls starting from a fresh instance the solution_cache is still the empty
dict it was created as — no state persists between requests. -/
theorem optimizer_state_never_changes (self : CVRPOptimizer) (args : OptArgs)
    (solve : BuiltModel → SolveOutcome)
    (calls : List (OptArgs × (BuiltModel → SolveOutcome))) :
    (self.optimizeM args solve).1 = self ∧
    (self.optimizeM args solve).2 = optimize args solve ∧
    (runCalls CVRPOptimizer.init calls).solution_cache = [] := by
  refine ⟨rfl, rfl, ?_⟩
  rw [runCalls_state]
  rfl

end Barq
